import Mathlib

set_option maxRecDepth 8000

/-!
Shallow embedding of the library-management service in `src/main.py` (FastAPI,
in-memory stores).  Python `datetime` values are modelled as integer seconds
since the Unix epoch (the civil-calendar conversion below is the standard
days-from-civil algorithm, matching `datetime`'s proleptic Gregorian calendar);
Python floats arising from the priority-score computation are modelled as exact
rationals kept as unreduced numerator/denominator pairs.  Python dicts keyed by
id are modelled as association lists in insertion order.
-/

deriving instance DecidableEq for Except

namespace LibraryApi

/-- A calendar timestamp: the data `datetime(y, m, d, h, mi, sec)` carries. -/
structure DT where
  year : Int
  month : Int
  day : Int
  hour : Int
  minute : Int
  second : Int
deriving DecidableEq

/-- Days since 1970-01-01 of a civil date (proleptic Gregorian), the standard
days-from-civil algorithm; `Int.fdiv` is floor division as in Python. -/
def daysFromCivil (y m d : Int) : Int :=
  let y2 := if m ≤ 2 then y - 1 else y
  let era := Int.fdiv y2 400
  let yoe := y2 - era * 400
  let mShift := if 2 < m then m - 3 else m + 9
  let doy := Int.fdiv (153 * mShift + 2) 5 + d - 1
  let doe := yoe * 365 + Int.fdiv yoe 4 - Int.fdiv yoe 100 + doy
  era * 146097 + doe - 719468

/-- Seconds since the Unix epoch; the model of a Python `datetime` value for
comparison and arithmetic purposes (a fixed timezone offset would shift all
values equally and affects no comparison in the source). -/
def DT.toSecs (t : DT) : Int :=
  daysFromCivil t.year t.month t.day * 86400 + t.hour * 3600 + t.minute * 60 + t.second

/-- The constant `CURRENT_DATE = datetime(2025, 9, 14)` from src/main.py line 14. -/
def CURRENT_DATE : Int := DT.toSecs ⟨2025, 9, 14, 0, 0, 0⟩

/-- The hard-coded `borrowed_at = datetime(2025, 8, 20, 11, 0, 0)` in
`borrow_book` (src/main.py line 212). -/
def FIXED_BORROWED_AT : Int := DT.toSecs ⟨2025, 8, 20, 11, 0, 0⟩

/-- One day, `timedelta(days=14)` being 14 of these. -/
def SECONDS_PER_DAY : Int := 86400

/-- Python `calculate_due_date`: `borrowed_at + timedelta(days=14)`. -/
def calculate_due_date (borrowed_at : Int) : Int :=
  borrowed_at + 14 * SECONDS_PER_DAY

/-- Python `calculate_days_overdue`: `max(0, (CURRENT_DATE - due_date).days)`.
Python's `timedelta.days` is the floor of the day count, hence `Int.fdiv`. -/
def calculate_days_overdue (due_date : Int) : Int :=
  max 0 (Int.fdiv (CURRENT_DATE - due_date) SECONDS_PER_DAY)

/-- Zero-padding of a decimal number to `w` digits, as Python's `%Y`/`%m`/`%d`
and the `:03d` format spec do (wider numbers are kept whole). -/
def pad (w n : Nat) : String :=
  let s := Nat.repr n
  String.mk (List.replicate (w - s.length) '0') ++ s

/-- Python `reservation_time.strftime('%Y-%m%d')`: four-digit year, a hyphen, then
two-digit month and two-digit day with no separator between them. -/
def fmtDate (t : DT) : String :=
  pad 4 t.year.toNat ++ "-" ++ pad 2 t.month.toNat ++ pad 2 t.day.toNat

/-- Python `get_next_reservation_id`: increments the process-wide counter and renders
`f"RES-{reservation_time.strftime('%Y-%m%d')}-{reservation_counter:03d}"`.
Returns (new counter value, reservation id). -/
def get_next_reservation_id (reservation_time : DT) (ctr : Nat) : Nat × String :=
  (ctr + 1, "RES-" ++ fmtDate reservation_time ++ "-" ++ pad 3 (ctr + 1))

/-- Transaction status: `"active"` or `"returned"`. -/
inductive TxStatus
  | active
  | returned
deriving DecidableEq

/-- A transaction record as built in `borrow_book`. -/
structure Txn where
  transaction_id : Int
  member_id : Int
  book_id : Int
  borrowed_at : Int
  returned_at : Option Int
  status : TxStatus
  due_date : Int
deriving DecidableEq

/-- A member record as stored in the `members` dict. -/
structure Member where
  member_id : Int
  name : String
  age : Int
  has_borrowed : Bool
deriving DecidableEq

/-- A book record as stored in the `books` dict. -/
structure Book where
  book_id : Int
  title : String
  author : String
  isbn : String
  is_available : Bool
deriving DecidableEq

/-- A reservation record (`res_dict` in `create_reservation`); its `status`
field is always the literal `"queued"`. -/
structure Reservation where
  reservation_id : String
  member_id : Int
  book_id : Int
  status : String
  created_at : Int
deriving DecidableEq

/-- An exact rational `num / den`, the model of the float produced by
`calculate_priority_score` (kept unreduced; `den` is positive for every score
the code produces). -/
structure Score where
  num : Int
  den : Int
deriving DecidableEq

/-- The real value of a `Score`. -/
def Score.toRat (s : Score) : ℚ := (s.num : ℚ) / (s.den : ℚ)

/-- Negation, as in the heap key `-priority_score`. -/
def Score.negate (s : Score) : Score := ⟨-s.num, s.den⟩

/-- Strict comparison of the real values by cross-multiplication (valid since
every denominator the code produces is positive). -/
def scoreLtB (a b : Score) : Bool := decide (a.num * b.den < b.num * a.den)

/-- Equality of the real values by cross-multiplication. -/
def scoreEqB (a b : Score) : Bool := decide (a.num * b.den = b.num * a.den)

/-- A heap element: the tuple `(-priority_score, reservation_time.timestamp(),
res_dict)` pushed by `heapq.heappush`. -/
structure Entry where
  key : Score
  time : Int
  res : Reservation
deriving DecidableEq

/-- Python tuple `<` on two heap elements: lexicographic on the negated score
and then the timestamp.  (With both equal, CPython would go on to compare the
dicts and raise `TypeError`; timestamps of distinct reservations are distinct,
so that branch is dead and is modelled as `false`.) -/
def entLt (a b : Entry) : Bool :=
  scoreLtB a.key b.key || (scoreEqB a.key b.key && decide (a.time < b.time))

/-- The sift-up loop of CPython's `heapq._siftdown`, driven by explicit fuel.
Each iteration moves from `pos` to its parent `(pos - 1) / 2`, which is
strictly smaller, so `fuel = pos` iterations always suffice; the structural
fuel makes the function kernel-reducible. -/
def siftdownAux : Nat → List Entry → Entry → Nat → List Entry
  | 0, heap, newitem, pos => heap.set pos newitem
  | fuel + 1, heap, newitem, pos =>
    if pos = 0 then heap.set pos newitem
    else
      match heap.get? ((pos - 1) / 2) with
      | some parent =>
        if entLt newitem parent then
          siftdownAux fuel (heap.set pos parent) newitem ((pos - 1) / 2)
        else heap.set pos newitem
      | none => heap.set pos newitem

/-- CPython's `heapq._siftdown(heap, 0, pos)` with `heap[pos] = newitem`. -/
def siftdown (heap : List Entry) (newitem : Entry) (pos : Nat) : List Entry :=
  siftdownAux pos heap newitem pos

/-- CPython's `heapq.heappush`: append, then sift the new item up. -/
def heappush (heap : List Entry) (item : Entry) : List Entry :=
  siftdown (heap ++ [item]) item heap.length

/-- The whole in-memory state of the process: the module-level dicts, list and
counters of src/main.py.  Dicts are association lists in insertion order. -/
structure State where
  members : List (Int × Member)
  books : List (Int × Book)
  transactions : List Txn
  reservations : List (Int × List Entry)
  transaction_counter : Int
  reservation_counter : Nat
deriving DecidableEq

/-- The state at process start. -/
def State.init : State := ⟨[], [], [], [], 500, 0⟩

/-- Python `k in d` on an id-keyed dict. -/
def hasKey (l : List (Int × α)) (k : Int) : Bool := (List.lookup k l).isSome

/-- Python `d[k] = f(d[k])` on an id-keyed dict: rewrite the entry in place. -/
def updEntry (l : List (Int × α)) (k : Int) (f : α → α) : List (Int × α) :=
  l.map fun p => if p.1 = k then (p.1, f p.2) else p

/-- Python `del d[k]`. -/
def delKey (l : List (Int × α)) (k : Int) : List (Int × α) :=
  l.filter fun p => p.1 ≠ k

/-- An error response: HTTP status code (404, 400, 422 or 500) plus the
human-readable message from the handler's `detail`. -/
structure ApiErr where
  status : Nat
  msg : String
deriving DecidableEq

/-- The blanket `except Exception as e: raise HTTPException(500, ...)` wrapper
in `borrow_book` and `create_reservation`: every error raised inside, the
explicit `HTTPException(404/400, ...)` ones included, is caught and re-raised
as status 500 with message `f"Internal server error: {str(e)}"` (for an
`HTTPException`, `str(e)` renders its status code and detail). -/
def wrapInternal (e : ApiErr) : ApiErr :=
  ⟨500, "Internal server error: " ++ toString e.status ++ ": " ++ e.msg⟩

/-- Python `find_active_borrow`: first transaction of the member with status active. -/
def find_active_borrow (member_id : Int) (txns : List Txn) : Option Txn :=
  txns.find? fun t => t.member_id == member_id && t.status == .active

/-- Whether a returned transaction came back on time: the Python condition
`t.get("returned_at") and t["returned_at"] <= t["due_date"]`. -/
def onTimeB (t : Txn) : Bool :=
  match t.returned_at with
  | some r => decide (r ≤ t.due_date)
  | none => false

/-- Python `calculate_priority_score`: with `history` the member's transactions,
`frequency = len(history)` and `punctuality = onTime / len(history)` (the code
divides by the full history length, not by the returned count), the returned
float `frequency * 0.3 + punctuality * 0.7` equals the exact rational
`(3 * frequency ^ 2 + 7 * onTime) / (10 * frequency)`, which is the value this
model returns (as an unreduced pair; `0 / 1` for an empty history). -/
def calculate_priority_score (member_id : Int) (txns : List Txn) : Score :=
  let history := txns.filter fun t => t.member_id == member_id
  let frequency := history.length
  let onTime := (history.filter onTimeB).length
  if frequency = 0 then ⟨0, 1⟩
  else ⟨3 * (frequency : Int) * frequency + 7 * onTime, 10 * frequency⟩

/-- POST /api/members (`create_member`).  Pydantic validation (`member_id > 0`,
`name` non-empty, `age ≥ 12`) rejects the request before the handler runs;
modelled as a 400/422 error with no state change. -/
def create_member (id : Int) (name : String) (age : Int) (s : State) :
    Except ApiErr Member × State :=
  if ¬(0 < id ∧ 1 ≤ name.length ∧ 12 ≤ age) then
    (.error ⟨422, "validation error"⟩, s)
  else if hasKey s.members id then
    (.error ⟨400, "member with id: " ++ toString id ++ " already exists"⟩, s)
  else
    let m : Member := ⟨id, name, age, false⟩
    (.ok m, { s with members := s.members ++ [(id, m)] })

/-- PUT /api/members/id (`update_member`).  `if update.name:` applies the name
only when present and non-empty (Python truthiness); `if update.age is not
None:` applies the age whenever present (pydantic has already enforced
`age ≥ 12`, modelled as the 422 guard). -/
def update_member (id : Int) (name : Option String) (age : Option Int)
    (s : State) : Except ApiErr Member × State :=
  if (age.getD 12) < 12 then
    (.error ⟨422, "validation error"⟩, s)
  else if ¬ hasKey s.members id then
    (.error ⟨404, "member with id: " ++ toString id ++ " was not found"⟩, s)
  else
    let step1 : Member → Member := fun m =>
      match name with
      | some n => if n ≠ "" then { m with name := n } else m
      | none => m
    let step2 : Member → Member := fun m =>
      match age with
      | some a => { m with age := a }
      | none => m
    let ms := updEntry s.members id fun m => step2 (step1 m)
    ((List.lookup id ms).elim (.error ⟨500, "unreachable"⟩) .ok,
     { s with members := ms })

/-- DELETE /api/members/id (`delete_member`). -/
def delete_member (id : Int) (s : State) : Except ApiErr String × State :=
  if ¬ hasKey s.members id then
    (.error ⟨404, "member with id: " ++ toString id ++ " was not found"⟩, s)
  else if (find_active_borrow id s.transactions).isSome then
    (.error ⟨400, "cannot delete member with id: " ++ toString id ++
      ", member has an active book borrowing"⟩, s)
  else
    (.ok ("member with id: " ++ toString id ++ " has been deleted successfully"),
     { s with members := delKey s.members id })

/-- POST /api/books (`add_book`), with the pydantic guards modelled as the 422
case. -/
def add_book (id : Int) (title author isbn : String) (s : State) :
    Except ApiErr Book × State :=
  if ¬(0 < id ∧ 1 ≤ title.length ∧ 1 ≤ author.length ∧ 1 ≤ isbn.length) then
    (.error ⟨422, "validation error"⟩, s)
  else if hasKey s.books id then
    (.error ⟨400, "book with id: " ++ toString id ++ " already exists"⟩, s)
  else
    let b : Book := ⟨id, title, author, isbn, true⟩
    (.ok b, { s with books := s.books ++ [(id, b)] })

/-- DELETE /api/books/id (`delete_book`). -/
def delete_book (id : Int) (s : State) : Except ApiErr String × State :=
  if ¬ hasKey s.books id then
    (.error ⟨404, "book with id: " ++ toString id ++ " was not found"⟩, s)
  else if (s.transactions.find? fun t =>
      t.book_id == id && t.status == .active).isSome then
    (.error ⟨400, "cannot delete book with id: " ++ toString id ++
      ", book is currently borrowed"⟩, s)
  else
    (.ok ("book with id: " ++ toString id ++ " has been deleted successfully"),
     { s with books := delKey s.books id })

/-- The body of the `try:` block of POST /api/borrow (`borrow_book`): the four
precondition checks in source order, then the three mutations plus the
transaction-counter increment as one step. -/
def borrow_inner (m b : Int) (s : State) : Except ApiErr Txn × State :=
  if ¬ hasKey s.members m then
    (.error ⟨404, "member with id: " ++ toString m ++ " was not found"⟩, s)
  else if ¬ hasKey s.books b then
    (.error ⟨404, "book with id: " ++ toString b ++ " was not found"⟩, s)
  else if (find_active_borrow m s.transactions).isSome then
    (.error ⟨400, "member with id: " ++ toString m ++
      " has already borrowed a book"⟩, s)
  else if ¬ ((List.lookup b s.books).elim false Book.is_available) then
    (.error ⟨400, "book with id: " ++ toString b ++ " is not available"⟩, s)
  else
    let tid := s.transaction_counter + 1
    let borrowed_at := FIXED_BORROWED_AT
    let due := calculate_due_date borrowed_at
    let t : Txn := ⟨tid, m, b, borrowed_at, none, .active, due⟩
    (.ok t,
     { s with
        transactions := s.transactions ++ [t]
        transaction_counter := tid
        members := updEntry s.members m fun mm => { mm with has_borrowed := true }
        books := updEntry s.books b fun bb => { bb with is_available := false } })

/-- POST /api/borrow (`borrow_book`): the `try/except Exception` wrapper turns
every raised error, the intended 404/400 responses included, into a 500. -/
def borrow_book (m b : Int) (s : State) : Except ApiErr Txn × State :=
  match borrow_inner m b s with
  | (.error e, s') => (.error (wrapInternal e), s')
  | r => r

/-- POST /api/return (`return_book`): find the first active transaction
matching both ids; if none, 400 with both ids in the message; otherwise mark it
returned at `now` (`datetime.utcnow()`), then clear the member flag and set the
book flag.  The flag writes are plain dict subscripts: were the member or book
id missing, Python would raise `KeyError` after the transaction was already
mutated, which FastAPI reports as a 500 — modelled by the two inner guards. -/
def return_book (m b : Int) (now : Int) (s : State) : Except ApiErr Txn × State :=
  match s.transactions.findIdx? (fun t =>
      t.member_id == m && t.book_id == b && t.status == .active) with
  | none =>
    (.error ⟨400, "member with id: " ++ toString m ++
      " has not borrowed book with id: " ++ toString b⟩, s)
  | some i =>
    match s.transactions.get? i with
    | none => (.error ⟨500, "unreachable"⟩, s)
    | some t0 =>
      let t1 : Txn := { t0 with returned_at := some now, status := .returned }
      let s1 := { s with transactions := s.transactions.set i t1 }
      if hasKey s1.members m then
        let s2 := { s1 with
          members := updEntry s1.members m fun mm => { mm with has_borrowed := false } }
        if hasKey s2.books b then
          (.ok t1, { s2 with
            books := updEntry s2.books b fun bb => { bb with is_available := true } })
        else (.error ⟨500, "Internal server error: KeyError"⟩, s2)
      else (.error ⟨500, "Internal server error: KeyError"⟩, s1)

/-- The response body of POST /api/reservations. -/
structure RespReservation where
  reservation_id : String
  member_id : Int
  book_id : Int
  reservation_status : String
  queue_position : Nat
deriving DecidableEq

/-- The count `sum(1 for q in reservations.values() for r in q if r[2]["member_id"] ==
member_id)`: the member's reservation count across all queues. -/
def countResMember (rs : List (Int × List Entry)) (m : Int) : Nat :=
  (rs.map fun p => (p.2.filter fun e => e.res.member_id == m).length).sum

/-- The body of the `try:` block of POST /api/reservations
(`create_reservation`): book check, member check, 2-reservation limit over all
queues, then score, id generation, `heapq.heappush` into the book's queue
(created empty first if absent), and the queue position reported as the 1-based
index of the new id in the heap's backing list (0 if not found). -/
def create_reservation_inner (m b : Int) (now : DT) (s : State) :
    Except ApiErr RespReservation × State :=
  if ¬ hasKey s.books b then
    (.error ⟨404, "book with id: " ++ toString b ++ " was not found"⟩, s)
  else if ¬ hasKey s.members m then
    (.error ⟨404, "member with id: " ++ toString m ++ " was not found"⟩, s)
  else if 2 ≤ countResMember s.reservations m then
    (.error ⟨400, "Multiple complex validation failures detected"⟩, s)
  else
    let score := calculate_priority_score m s.transactions
    let idPair := get_next_reservation_id now s.reservation_counter
    let rid := idPair.2
    let res : Reservation := ⟨rid, m, b, "queued", now.toSecs⟩
    let entry : Entry := ⟨score.negate, now.toSecs, res⟩
    let rs0 := if hasKey s.reservations b then s.reservations
               else s.reservations ++ [(b, [])]
    let rs1 := updEntry rs0 b fun q => heappush q entry
    let queue := (List.lookup b rs1).getD []
    let position := match queue.findIdx? (fun e =>
        e.res.reservation_id == rid) with
      | some i => i + 1
      | none => 0
    (.ok ⟨rid, m, b, "queued", position⟩,
     { s with reservations := rs1, reservation_counter := idPair.1 })

/-- POST /api/reservations (`create_reservation`): like `borrow_book`, the
`try/except Exception` wrapper converts every raised error into a 500. -/
def create_reservation (m b : Int) (now : DT) (s : State) :
    Except ApiErr RespReservation × State :=
  match create_reservation_inner m b now s with
  | (.error e, s') => (.error (wrapInternal e), s')
  | r => r

/-- One row of the GET /api/overdue response. -/
structure OverdueBook where
  transaction_id : Int
  member_id : Int
  member_name : String
  book_id : Int
  book_title : String
  borrowed_at : Int
  due_date : Int
  days_overdue : Int
deriving DecidableEq

/-- The row `get_overdue` builds for one transaction, with the
`members.get(...).get("name", "Unknown")`-style fallbacks. -/
def mkOverdue (s : State) (t : Txn) : OverdueBook :=
  ⟨t.transaction_id, t.member_id,
   ((List.lookup t.member_id s.members).map Member.name).getD "Unknown",
   t.book_id,
   ((List.lookup t.book_id s.books).map Book.title).getD "Unknown",
   t.borrowed_at, t.due_date, calculate_days_overdue t.due_date⟩

/-- GET /api/overdue (`get_overdue`): the active transactions with
`CURRENT_DATE > due_date`, each annotated by `calculate_days_overdue`. -/
def get_overdue (s : State) : List OverdueBook :=
  (s.transactions.filter fun t =>
    t.status == .active && decide (t.due_date < CURRENT_DATE)).map (mkOverdue s)

/-- The state-mutating API operations of src/main.py, with each call's
`datetime.utcnow()` reading supplied explicitly. -/
inductive Op
  | createMember (id : Int) (name : String) (age : Int)
  | updateMember (id : Int) (name : Option String) (age : Option Int)
  | deleteMember (id : Int)
  | createBook (id : Int) (title author isbn : String)
  | deleteBook (id : Int)
  | borrow (m b : Int)
  | ret (m b : Int) (now : Int)
  | reserve (m b : Int) (now : DT)
deriving DecidableEq

/-- The state after one API call. -/
def step (op : Op) (s : State) : State :=
  match op with
  | .createMember id n a => (create_member id n a s).2
  | .updateMember id n a => (update_member id n a s).2
  | .deleteMember id => (delete_member id s).2
  | .createBook id t a i => (add_book id t a i s).2
  | .deleteBook id => (delete_book id s).2
  | .borrow m b => (borrow_book m b s).2
  | .ret m b now => (return_book m b now s).2
  | .reserve m b now => (create_reservation m b now s).2

/-- The state after a sequence of API calls. -/
def run (ops : List Op) (s : State) : State :=
  ops.foldl (fun s op => step op s) s

/-- The transaction `borrow_book` appends when every check passes. -/
def borrowTxn (m b : Int) (s : State) : Txn :=
  ⟨s.transaction_counter + 1, m, b, FIXED_BORROWED_AT, none, .active,
   calculate_due_date FIXED_BORROWED_AT⟩

/-- The predicate `return_book` searches the ledger with. -/
def retPred (m b : Int) : Txn → Bool :=
  fun t => t.member_id == m && t.book_id == b && t.status == .active

/-- A transaction marked returned at `now`. -/
def retTxn (t : Txn) (now : Int) : Txn :=
  { t with returned_at := some now, status := .returned }

/-- The heap entry `create_reservation` pushes when every check passes. -/
def reserveEntry (m b : Int) (now : DT) (s : State) : Entry :=
  ⟨(calculate_priority_score m s.transactions).negate, now.toSecs,
   ⟨(get_next_reservation_id now s.reservation_counter).2, m, b, "queued", now.toSecs⟩⟩

/-- The reservations dict after a successful `create_reservation`: the book's
queue (created empty if absent) with the new entry heap-pushed. -/
def reserveQueues (m b : Int) (now : DT) (s : State) : List (Int × List Entry) :=
  updEntry (if hasKey s.reservations b = true then s.reservations
            else s.reservations ++ [(b, [])]) b
    (fun q => heappush q (reserveEntry m b now s))

/-- The queue position a successful `create_reservation` reports: one plus the
raw index of the new reservation id in the heap's backing list (0 if absent). -/
def reservePos (m b : Int) (now : DT) (s : State) : Nat :=
  match ((List.lookup b (reserveQueues m b now s)).getD []).findIdx?
      (fun e => e.res.reservation_id ==
        (get_next_reservation_id now s.reservation_counter).2) with
  | some i => i + 1
  | none => 0

/-! ### Spec-side definitions, written from the claims' words, for comparison
with the code-side functions above. -/

/-- The queue rank claim C1 speaks of: the reservation's 1-based position in
the book's queue fully ordered by (priority score descending, creation time
ascending) — one plus the number of entries strictly preceding it in that
order (`entLt` is exactly that strict order on the stored keys). -/
def specQueueRank (q : List Entry) (rid : String) : Nat :=
  match q.find? (fun e => e.res.reservation_id == rid) with
  | some e => 1 + (q.filter fun e2 => entLt e2 e).length
  | none => 0

/-- The priority score as claim C2 words it: frequency times 0.3 plus
punctuality times 0.7, where punctuality divides the on-time returned count by
the count of returned transactions (not by the full history length). -/
def claimPriorityScore (member_id : Int) (txns : List Txn) : ℚ :=
  let history := txns.filter fun t => t.member_id == member_id
  let returned := history.filter fun t => t.status == .returned
  let onTime := (returned.filter onTimeB).length
  let punctuality : ℚ :=
    if history.length ≠ 0 then (onTime : ℚ) / (returned.length : ℚ) else 0
  (history.length : ℚ) * (3 / 10) + punctuality * (7 / 10)

/-- The reservation-id shape claim C5 asserts: the string "RES-", eight
contiguous digits, a hyphen, and the zero-padded counter (at least three
digits). -/
def claimedResIdFormat (s : String) : Bool :=
  match s.data with
  | 'R' :: 'E' :: 'S' :: '-' :: rest =>
    ((rest.take 8).length == 8 && (rest.take 8).all Char.isDigit) &&
      (match rest.drop 8 with
       | '-' :: ns => decide (3 ≤ ns.length) && ns.all Char.isDigit
       | _ => false)
  | _ => false

/-- How many entries of one book's queue belong to the given member. -/
def countResMemberBook (rs : List (Int × List Entry)) (m b : Int) : Nat :=
  (((List.lookup b rs).getD []).filter fun e => e.res.member_id == m).length

/-! ### Invariants (spec §8): derived-flag consistency and its strengthening
used to prove it inductive. -/

/-- Every stored member's `has_borrowed` flag equals "an active transaction of
this member exists". -/
def memberFlagOk (s : State) : Prop :=
  ∀ p ∈ s.members, (Prod.snd (α := Int) p).has_borrowed = true ↔
    ∃ t ∈ s.transactions, t.member_id = p.1 ∧ t.status = .active

/-- Every stored book's `is_available` flag equals "no active transaction
references this book". -/
def bookFlagOk (s : State) : Prop :=
  ∀ p ∈ s.books, (Prod.snd (α := Int) p).is_available = true ↔
    ¬ ∃ t ∈ s.transactions, t.book_id = p.1 ∧ t.status = .active

/-- Every active transaction references a stored member and a stored book. -/
def activeRefsExist (s : State) : Prop :=
  ∀ t ∈ s.transactions, t.status = .active →
    hasKey s.members t.member_id = true ∧ hasKey s.books t.book_id = true

/-- Number of active transactions of one member. -/
def activeMemberCount (s : State) (mid : Int) : Nat :=
  s.transactions.countP fun t => t.member_id == mid && t.status == .active

/-- Number of active transactions on one book. -/
def activeBookCount (s : State) (bid : Int) : Nat :=
  s.transactions.countP fun t => t.book_id == bid && t.status == .active

/-- The inductive strengthening of the flag invariant: flags match, active
transactions reference stored entities, and each member and each book has at
most one active transaction. -/
def StrongInv (s : State) : Prop :=
  memberFlagOk s ∧ bookFlagOk s ∧ activeRefsExist s ∧
    (∀ mid, activeMemberCount s mid ≤ 1) ∧ (∀ bid, activeBookCount s bid ≤ 1)

/-! ### Concrete scenarios used by counterexamples and witnesses. -/

/-- The instant 2025-09-01 00:00:00, an on-time return for the fixed due date. -/
def earlyReturn : Int := DT.toSecs ⟨2025, 9, 1, 0, 0, 0⟩

/-- Four members, four books, three borrows (members 1, 2 and 4 each hold one
active loan, member 3 has no history), then three reservations on book 200 at
successive instants: the reserving members' scores are 0.3, 0.3, 0. -/
def scenarioA : List Op :=
  [ .createMember 1 "alice" 20, .createMember 2 "bob" 20,
    .createMember 3 "carol" 20, .createMember 4 "dave" 20,
    .createBook 101 "t1" "a1" "i1", .createBook 102 "t2" "a2" "i2",
    .createBook 104 "t4" "a4" "i4", .createBook 200 "t5" "a5" "i5",
    .borrow 1 101, .borrow 2 102, .borrow 4 104,
    .reserve 1 200 ⟨2025, 9, 14, 10, 0, 0⟩,
    .reserve 2 200 ⟨2025, 9, 14, 10, 0, 1⟩,
    .reserve 3 200 ⟨2025, 9, 14, 10, 0, 2⟩ ]

/-- The state after `scenarioA`. -/
def stateA : State := run scenarioA State.init

/-- The fourth reservation instant of the C1 scenario. -/
def timeA4 : DT := ⟨2025, 9, 14, 10, 0, 3⟩

/-- Member 1 borrows book 11, returns it on time, then borrows book 12: the
resulting history is one on-time returned transaction plus one active one. -/
def scenarioB : List Op :=
  [ .createMember 1 "alice" 20, .createBook 11 "t1" "a1" "i1",
    .createBook 12 "t2" "a2" "i2",
    .borrow 1 11, .ret 1 11 earlyReturn, .borrow 1 12 ]

/-- The state after `scenarioB`. -/
def stateB : State := run scenarioB State.init

/-- One member, one book, one (overdue) active loan. -/
def scenarioC : List Op :=
  [ .createMember 1 "alice" 20, .createBook 11 "t1" "a1" "i1", .borrow 1 11 ]

/-- The state after `scenarioC`. -/
def stateC : State := run scenarioC State.init

/-- Member 9 holds two reservations (books 201 and 202) and no loan. -/
def scenarioG : List Op :=
  [ .createMember 9 "gerd" 30,
    .createBook 201 "t1" "a1" "i1", .createBook 202 "t2" "a2" "i2",
    .reserve 9 201 ⟨2025, 9, 14, 9, 0, 0⟩,
    .reserve 9 202 ⟨2025, 9, 14, 9, 0, 1⟩ ]

/-- The state after `scenarioG`. -/
def stateG : State := run scenarioG State.init

/-- Member 7 holds exactly one reservation, on book 300. -/
def scenarioF : List Op :=
  [ .createMember 7 "fred" 30, .createBook 300 "t1" "a1" "i1",
    .reserve 7 300 ⟨2025, 9, 14, 8, 0, 0⟩ ]

/-- The state after `scenarioF`. -/
def stateF : State := run scenarioF State.init

/-- Scenario `scenarioC` plus a second member who has borrowed nothing. -/
def scenarioC2 : List Op := scenarioC ++ [.createMember 2 "bob" 20]

/-- The state after `scenarioC2`. -/
def stateC2 : State := run scenarioC2 State.init

/-! ### Helper lemmas on the dict model. -/

theorem lookup_cons_eq (k a : Int) (b : α) (l : List (Int × α)) :
    List.lookup k ((a, b) :: l) = if k = a then some b else List.lookup k l := by
  by_cases h : k = a
  · have hb : (k == a) = true := by simpa [beq_iff_eq] using h
    rw [if_pos h]
    simp only [List.lookup, hb]
  · have hb : (k == a) = false := by simpa [beq_iff_eq] using h
    rw [if_neg h]
    simp only [List.lookup, hb]

theorem lookup_updEntry (l : List (Int × α)) (k0 : Int) (f : α → α) (k : Int) :
    List.lookup k (updEntry l k0 f) =
      if k = k0 then (List.lookup k l).map f else List.lookup k l := by
  induction l with
  | nil => simp [updEntry]
  | cons hd tl ih =>
    obtain ⟨a, b⟩ := hd
    by_cases h1 : a = k0 <;> by_cases h2 : k = a <;>
      (simp [updEntry, lookup_cons_eq, h1, h2, ih] at ih ⊢; try simp_all)

theorem hasKey_updEntry (l : List (Int × α)) (k0 : Int) (f : α → α) (k : Int) :
    hasKey (updEntry l k0 f) k = hasKey l k := by
  simp only [hasKey, lookup_updEntry]
  split <;> simp

theorem lookup_delKey (l : List (Int × α)) (k0 k : Int) :
    List.lookup k (delKey l k0) =
      if k = k0 then none else List.lookup k l := by
  induction l with
  | nil => simp [delKey]
  | cons hd tl ih =>
    obtain ⟨a, b⟩ := hd
    by_cases h1 : a = k0
    · have : delKey ((a, b) :: tl) k0 = delKey tl k0 := by
        simp [delKey, List.filter, h1]
      rw [this, ih]
      by_cases h2 : k = k0
      · simp [h2]
      · simp [h2, lookup_cons_eq, h1 ▸ h2]
    · have : delKey ((a, b) :: tl) k0 = (a, b) :: delKey tl k0 := by
        simp [delKey, List.filter, h1]
      rw [this, lookup_cons_eq, lookup_cons_eq, ih]
      by_cases h2 : k = a
      · simp [h2, h1]
      · simp [h2]

theorem hasKey_append_single (l : List (Int × α)) (k0 : Int) (v : α) (k : Int) :
    hasKey (l ++ [(k0, v)]) k = (hasKey l k || decide (k = k0)) := by
  induction l with
  | nil =>
    simp only [hasKey, List.nil_append, lookup_cons_eq, List.lookup_nil]
    split <;> simp_all
  | cons hd tl ih =>
    obtain ⟨a, b⟩ := hd
    simp only [hasKey, List.cons_append, lookup_cons_eq] at ih ⊢
    by_cases h2 : k = a
    · simp [h2]
    · simp only [if_neg h2]
      exact ih

theorem lookup_append_self (l : List (Int × α)) (k : Int) (v : α)
    (h : hasKey l k = false) : List.lookup k (l ++ [(k, v)]) = some v := by
  induction l with
  | nil => simp [lookup_cons_eq]
  | cons hd tl ih =>
    obtain ⟨a, b⟩ := hd
    simp only [hasKey, lookup_cons_eq] at h
    by_cases h2 : k = a
    · rw [if_pos h2] at h
      simp at h
    · rw [if_neg h2] at h
      simp only [List.cons_append, lookup_cons_eq, if_neg h2]
      exact ih h

theorem mem_of_lookup_eq_some {l : List (Int × α)} {k : Int} {v : α}
    (h : List.lookup k l = some v) : (k, v) ∈ l := by
  induction l with
  | nil => simp at h
  | cons hd tl ih =>
    obtain ⟨a, b⟩ := hd
    by_cases h2 : k = a
    · rw [lookup_cons_eq, if_pos h2] at h
      subst h2
      obtain rfl : b = v := by simpa using h
      exact List.mem_cons_self _ _
    · rw [lookup_cons_eq, if_neg h2] at h
      exact List.mem_cons_of_mem _ (ih h)

theorem countP_set_add (p : α → Bool) (l : List α) (i : Nat) (a : α)
    (h : i < l.length) :
    (l.set i a).countP p + (if p (l.get ⟨i, h⟩) then 1 else 0) =
      l.countP p + (if p a then 1 else 0) := by
  induction l generalizing i with
  | nil => simp at h
  | cons hd tl ih =>
    cases i with
    | zero => simp [List.countP_cons]; omega
    | succ j =>
      have hj : j < tl.length := by simpa using h
      have := ih j hj
      simp only [List.set, List.countP_cons, List.get]
      omega

theorem siftdownAux_countP (p : Entry → Bool) (fuel : Nat) :
    ∀ (heap : List Entry) (item : Entry) (pos : Nat), pos < heap.length →
      (siftdownAux fuel heap item pos).countP p = ((heap.set pos item).countP p) := by
  induction fuel with
  | zero => intro heap item pos _; rfl
  | succ fuel ih =>
    intro heap item pos hpos
    by_cases h0 : pos = 0
    · simp [siftdownAux, h0]
    · have hpar : (pos - 1) / 2 < heap.length := by omega
      have hget : heap.get? ((pos - 1) / 2) = some heap[(pos - 1) / 2] := by
        simp [List.get?_eq_getElem?, List.getElem?_eq_getElem, hpar]
      by_cases hcmp : entLt item heap[(pos - 1) / 2] = true
      · have hstep : siftdownAux (fuel + 1) heap item pos =
            siftdownAux fuel (heap.set pos heap[(pos - 1) / 2]) item ((pos - 1) / 2) := by
          rw [siftdownAux, if_neg h0, hget]
          simp only [hcmp, if_pos]
        rw [hstep]
        have hlen : (pos - 1) / 2 < (heap.set pos heap[(pos - 1) / 2]).length := by
          simpa using hpar
        rw [ih _ item _ hlen]
        have hne : (pos - 1) / 2 ≠ pos := by omega
        have e1 := countP_set_add p (heap.set pos heap[(pos - 1) / 2]) ((pos - 1) / 2)
          item hlen
        have e2 := countP_set_add p heap pos heap[(pos - 1) / 2] hpos
        have e3 := countP_set_add p heap pos item hpos
        have hgetj : (heap.set pos heap[(pos - 1) / 2]).get ⟨(pos - 1) / 2, hlen⟩ =
            heap[(pos - 1) / 2] := by
          simp only [List.get_eq_getElem]
          rw [List.getElem_set]
          simp [hne.symm]
        rw [hgetj] at e1
        simp only [List.get_eq_getElem] at e1 e2 e3
        omega
      · rw [siftdownAux, if_neg h0, hget]
        simp [hcmp]

theorem heappush_countP (p : Entry → Bool) (q : List Entry) (e : Entry) :
    (heappush q e).countP p = q.countP p + (if p e then 1 else 0) := by
  have hlen : q.length < (q ++ [e]).length := by simp
  rw [heappush, siftdown, siftdownAux_countP p _ _ _ _ hlen]
  have hgete : (q ++ [e]).get ⟨q.length, hlen⟩ = e := by
    simp
  have := countP_set_add p (q ++ [e]) q.length e hlen
  rw [hgete] at this
  have happ : (q ++ [e]).countP p = q.countP p + (if p e then 1 else 0) := by
    simp [List.countP_append, List.countP_cons]
  omega

theorem mem_set_of_ne {α : Type _} {l : List α} {a b : α} {i : Nat}
    (hi : i < l.length) (hmem : a ∈ l) (hne : a ≠ l.get ⟨i, hi⟩) :
    a ∈ l.set i b := by
  induction l generalizing i with
  | nil => simp at hmem
  | cons hd tl ih =>
    cases i with
    | zero =>
      simp only [List.get] at hne
      rcases List.mem_cons.mp hmem with rfl | hmem2
      · exact absurd rfl hne
      · exact List.mem_cons_of_mem _ hmem2
    | succ j =>
      have hj : j < tl.length := by simpa using hi
      simp only [List.get] at hne
      rcases List.mem_cons.mp hmem with rfl | hmem2
      · exact List.mem_cons_self _ _
      · exact List.mem_cons_of_mem _ (ih hj hmem2 hne)

/-! ### Preservation of the strengthened invariant by every operation. -/

theorem StrongInv_init : StrongInv State.init := by
  refine ⟨?_, ?_, ?_, ?_, ?_⟩ <;>
    simp [memberFlagOk, bookFlagOk, activeRefsExist, activeMemberCount,
      activeBookCount, State.init]

/-! ### Branch characterizations of the operations' effect on the state. -/

theorem create_member_snd (id : Int) (n : String) (a : Int) (s : State) :
    (create_member id n a s).2 = s ∨
    (hasKey s.members id = false ∧
     (create_member id n a s).2 =
       { s with members := s.members ++ [(id, ⟨id, n, a, false⟩)] }) := by
  unfold create_member
  by_cases hv : ¬(0 < id ∧ 1 ≤ n.length ∧ 12 ≤ a)
  · left; rw [if_pos hv]
  · by_cases hk : hasKey s.members id = true
    · left; rw [if_neg hv, if_pos hk]
    · right
      exact ⟨by simpa using hk, by rw [if_neg hv, if_neg hk]⟩

theorem update_member_snd (id : Int) (n : Option String) (a : Option Int)
    (s : State) :
    (update_member id n a s).2 = s ∨
    ∃ f : Member → Member, (∀ m, (f m).has_borrowed = m.has_borrowed) ∧
      (update_member id n a s).2 = { s with members := updEntry s.members id f } := by
  unfold update_member
  by_cases hv : (a.getD 12) < 12
  · left; rw [if_pos hv]
  · by_cases hk : ¬ hasKey s.members id = true
    · left; rw [if_neg hv, if_pos hk]
    · right
      refine ⟨_, ?_, by rw [if_neg hv, if_neg hk]⟩
      intro m
      cases n with
      | none => cases a <;> simp
      | some nv => by_cases hnv : nv = "" <;> cases a <;> simp [hnv]

theorem delete_member_snd (id : Int) (s : State) :
    (delete_member id s).2 = s ∨
    (find_active_borrow id s.transactions = none ∧
     (delete_member id s).2 = { s with members := delKey s.members id }) := by
  unfold delete_member
  by_cases hk : ¬ hasKey s.members id = true
  · left; rw [if_pos hk]
  · by_cases hact : (find_active_borrow id s.transactions).isSome = true
    · left; rw [if_neg hk, if_pos hact]
    · right
      refine ⟨?_, by rw [if_neg hk, if_neg hact]⟩
      revert hact
      cases find_active_borrow id s.transactions <;> simp

theorem add_book_snd (id : Int) (t a i : String) (s : State) :
    (add_book id t a i s).2 = s ∨
    (hasKey s.books id = false ∧
     (add_book id t a i s).2 =
       { s with books := s.books ++ [(id, ⟨id, t, a, i, true⟩)] }) := by
  unfold add_book
  by_cases hv : ¬(0 < id ∧ 1 ≤ t.length ∧ 1 ≤ a.length ∧ 1 ≤ i.length)
  · left; rw [if_pos hv]
  · by_cases hk : hasKey s.books id = true
    · left; rw [if_neg hv, if_pos hk]
    · right
      exact ⟨by simpa using hk, by rw [if_neg hv, if_neg hk]⟩

theorem delete_book_snd (id : Int) (s : State) :
    (delete_book id s).2 = s ∨
    ((s.transactions.find? fun t => t.book_id == id && t.status == .active) = none ∧
     (delete_book id s).2 = { s with books := delKey s.books id }) := by
  unfold delete_book
  by_cases hk : ¬ hasKey s.books id = true
  · left; rw [if_pos hk]
  · by_cases hact : (s.transactions.find? fun t =>
        t.book_id == id && t.status == .active).isSome = true
    · left; rw [if_neg hk, if_pos hact]
    · right
      refine ⟨?_, by rw [if_neg hk, if_neg hact]⟩
      revert hact
      cases s.transactions.find? fun t => t.book_id == id && t.status == .active <;>
        simp

theorem borrow_inner_cases (m b : Int) (s : State) :
    ((∃ e, (borrow_inner m b s).1 = .error e) ∧ (borrow_inner m b s).2 = s) ∨
    (hasKey s.members m = true ∧ hasKey s.books b = true ∧
     find_active_borrow m s.transactions = none ∧
     (List.lookup b s.books).elim false Book.is_available = true ∧
     (borrow_inner m b s).1 = .ok (borrowTxn m b s) ∧
     (borrow_inner m b s).2 = { s with
        transactions := s.transactions ++ [borrowTxn m b s]
        transaction_counter := s.transaction_counter + 1
        members := updEntry s.members m fun mm => { mm with has_borrowed := true }
        books := updEntry s.books b fun bb => { bb with is_available := false } }) := by
  unfold borrow_inner
  by_cases h1 : ¬ hasKey s.members m = true
  · left; rw [if_pos h1]; exact ⟨⟨_, rfl⟩, rfl⟩
  · by_cases h2 : ¬ hasKey s.books b = true
    · left; rw [if_neg h1, if_pos h2]; exact ⟨⟨_, rfl⟩, rfl⟩
    · by_cases h3 : (find_active_borrow m s.transactions).isSome = true
      · left; rw [if_neg h1, if_neg h2, if_pos h3]; exact ⟨⟨_, rfl⟩, rfl⟩
      · by_cases h4 : ¬ (List.lookup b s.books).elim false Book.is_available = true
        · left; rw [if_neg h1, if_neg h2, if_neg h3, if_pos h4]
          exact ⟨⟨_, rfl⟩, rfl⟩
        · right
          have h3n : find_active_borrow m s.transactions = none := by
            revert h3
            cases find_active_borrow m s.transactions <;> simp
          refine ⟨by simpa using h1, by simpa using h2, h3n, by simpa using h4, ?_, ?_⟩ <;>
            rw [if_neg h1, if_neg h2, if_neg h3, if_neg h4] <;> rfl

theorem borrow_book_fst (m b : Int) (s : State) :
    (borrow_book m b s).1 = (match (borrow_inner m b s).1 with
      | .error e => .error (wrapInternal e)
      | .ok t => .ok t) := by
  unfold borrow_book
  rcases h : borrow_inner m b s with ⟨r, s'⟩
  cases r <;> simp

theorem borrow_book_snd (m b : Int) (s : State) :
    (borrow_book m b s).2 = (borrow_inner m b s).2 := by
  unfold borrow_book
  rcases h : borrow_inner m b s with ⟨r, s'⟩
  cases r <;> simp

theorem create_reservation_fst (m b : Int) (now : DT) (s : State) :
    (create_reservation m b now s).1 =
      (match (create_reservation_inner m b now s).1 with
      | .error e => .error (wrapInternal e)
      | .ok r => .ok r) := by
  unfold create_reservation
  rcases h : create_reservation_inner m b now s with ⟨r, s'⟩
  cases r <;> simp

theorem create_reservation_snd (m b : Int) (now : DT) (s : State) :
    (create_reservation m b now s).2 = (create_reservation_inner m b now s).2 := by
  unfold create_reservation
  rcases h : create_reservation_inner m b now s with ⟨r, s'⟩
  cases r <;> simp

theorem create_reservation_inner_ok (m b : Int) (now : DT) (s : State)
    (h1 : hasKey s.books b = true) (h2 : hasKey s.members m = true)
    (h3 : countResMember s.reservations m < 2) :
    create_reservation_inner m b now s =
      (.ok ⟨(get_next_reservation_id now s.reservation_counter).2, m, b, "queued",
          reservePos m b now s⟩,
       { s with reservations := reserveQueues m b now s
                reservation_counter := s.reservation_counter + 1 }) := by
  unfold create_reservation_inner
  rw [if_neg (by simp [h1]), if_neg (by simp [h2]), if_neg (by omega)]
  rfl

theorem create_reservation_inner_cases (m b : Int) (now : DT) (s : State) :
    ((∃ e, (create_reservation_inner m b now s).1 = .error e) ∧
     (create_reservation_inner m b now s).2 = s) ∨
    (hasKey s.books b = true ∧ hasKey s.members m = true ∧
     countResMember s.reservations m < 2 ∧
     (create_reservation_inner m b now s).1 = .ok
       ⟨(get_next_reservation_id now s.reservation_counter).2, m, b, "queued",
        reservePos m b now s⟩ ∧
     (create_reservation_inner m b now s).2 = { s with
        reservations := reserveQueues m b now s
        reservation_counter := s.reservation_counter + 1 }) := by
  by_cases h1 : ¬ hasKey s.books b = true
  · left
    unfold create_reservation_inner
    rw [if_pos h1]; exact ⟨⟨_, rfl⟩, rfl⟩
  · by_cases h2 : ¬ hasKey s.members m = true
    · left
      unfold create_reservation_inner
      rw [if_neg h1, if_pos h2]; exact ⟨⟨_, rfl⟩, rfl⟩
    · by_cases h3 : 2 ≤ countResMember s.reservations m
      · left
        unfold create_reservation_inner
        rw [if_neg h1, if_neg h2, if_pos h3]; exact ⟨⟨_, rfl⟩, rfl⟩
      · have hok := create_reservation_inner_ok m b now s (by simpa using h1)
          (by simpa using h2) (by omega)
        right
        exact ⟨by simpa using h1, ⟨by simpa using h2, ⟨by omega,
          ⟨by rw [hok], by rw [hok]⟩⟩⟩⟩

theorem return_book_cases {s : State} (hinv : StrongInv s) (m b : Int) (now : Int) :
    ((∃ e, (return_book m b now s).1 = .error e) ∧ (return_book m b now s).2 = s) ∨
    (∃ (i : Nat) (t0 : Txn),
      s.transactions.findIdx? (retPred m b) = some i ∧
      s.transactions.get? i = some t0 ∧
      retPred m b t0 = true ∧
      (return_book m b now s).1 = .ok (retTxn t0 now) ∧
      (return_book m b now s).2 = { s with
        transactions := s.transactions.set i (retTxn t0 now)
        members := updEntry s.members m fun mm => { mm with has_borrowed := false }
        books := updEntry s.books b fun bb => { bb with is_available := true } }) := by
  unfold return_book
  rcases hfind : s.transactions.findIdx? (retPred m b) with _ | i
  · rw [show (s.transactions.findIdx? fun t =>
        t.member_id == m && t.book_id == b && t.status == .active) = none from hfind]
    exact Or.inl ⟨⟨_, rfl⟩, rfl⟩
  · obtain ⟨hi, hidx⟩ := List.findIdx?_eq_some_iff_findIdx_eq.mp hfind
    have hp : retPred m b (s.transactions.get ⟨i, hi⟩) = true := by
      simp only [List.get_eq_getElem]
      subst hidx
      exact List.findIdx_getElem
    have hget : s.transactions.get? i = some (s.transactions.get ⟨i, hi⟩) := by
      simp [List.get?_eq_getElem?, List.getElem?_eq_getElem, hi]
    have hmem : s.transactions.get ⟨i, hi⟩ ∈ s.transactions := List.get_mem _ _ _
    have hpm : (s.transactions.get ⟨i, hi⟩).member_id = m ∧
        (s.transactions.get ⟨i, hi⟩).book_id = b ∧
        (s.transactions.get ⟨i, hi⟩).status = .active := by
      have := hp
      simp only [retPred, Bool.and_eq_true, beq_iff_eq] at this
      exact ⟨this.1.1, this.1.2, this.2⟩
    have hkm : hasKey s.members m = true := by
      have := (hinv.2.2.1 _ hmem hpm.2.2).1
      rwa [hpm.1] at this
    have hkb : hasKey s.books b = true := by
      have := (hinv.2.2.1 _ hmem hpm.2.2).2
      rwa [hpm.2.1] at this
    rw [show (s.transactions.findIdx? fun t =>
        t.member_id == m && t.book_id == b && t.status == .active) = some i from hfind]
    dsimp only
    rw [hget]
    dsimp only
    rw [if_pos hkm, if_pos hkb]
    exact Or.inr ⟨i, s.transactions.get ⟨i, hi⟩, rfl, hget, hp, rfl, rfl⟩



/-! ### The invariant is preserved by every operation. -/

theorem StrongInv_create_member (id : Int) (n : String) (a : Int) {s : State}
    (h : StrongInv s) : StrongInv (create_member id n a s).2 := by
  rcases create_member_snd id n a s with hs | ⟨hk, hs⟩
  · rw [hs]; exact h
  · rw [hs]
    obtain ⟨hm, hb, href, hcm, hcb⟩ := h
    refine ⟨?_, hb, ?_, hcm, hcb⟩
    · intro p hp
      rcases List.mem_append.mp hp with hp1 | hp2
      · exact hm p hp1
      · have hpe : p = (id, ⟨id, n, a, false⟩) := by simpa using hp2
        subst hpe
        constructor
        · intro hflag; simp at hflag
        · rintro ⟨t, ht, htm, hta⟩
          have hx := (href t ht hta).1
          rw [htm, hk] at hx
          simp at hx
    · intro t ht hta
      refine ⟨?_, (href t ht hta).2⟩
      rw [hasKey_append_single]
      simp [(href t ht hta).1]

theorem StrongInv_update_member (id : Int) (n : Option String) (a : Option Int)
    {s : State} (h : StrongInv s) : StrongInv (update_member id n a s).2 := by
  rcases update_member_snd id n a s with hs | ⟨f, hf, hs⟩
  · rw [hs]; exact h
  · rw [hs]
    obtain ⟨hm, hb, href, hcm, hcb⟩ := h
    refine ⟨?_, hb, ?_, hcm, hcb⟩
    · intro p hp
      rcases List.mem_map.mp hp with ⟨q, hq, hpq⟩
      by_cases hqk : q.1 = id
      · rw [if_pos hqk] at hpq
        subst hpq
        simpa [hf] using hm q hq
      · rw [if_neg hqk] at hpq
        subst hpq
        exact hm q hq
    · intro t ht hta
      refine ⟨?_, (href t ht hta).2⟩
      rw [hasKey_updEntry]
      exact (href t ht hta).1

theorem StrongInv_delete_member (id : Int) {s : State} (h : StrongInv s) :
    StrongInv (delete_member id s).2 := by
  rcases delete_member_snd id s with hs | ⟨hact, hs⟩
  · rw [hs]; exact h
  · rw [hs]
    obtain ⟨hm, hb, href, hcm, hcb⟩ := h
    refine ⟨?_, hb, ?_, hcm, hcb⟩
    · intro p hp
      exact hm p (List.mem_of_mem_filter hp)
    · intro t ht hta
      refine ⟨?_, (href t ht hta).2⟩
      have hnot := List.find?_eq_none.mp hact t ht
      have htm : t.member_id ≠ id := by
        intro he
        exact hnot (by simp [he, hta])
      have := (href t ht hta).1
      simp only [hasKey] at this ⊢
      rwa [lookup_delKey, if_neg htm]

theorem StrongInv_add_book (id : Int) (t a i : String) {s : State}
    (h : StrongInv s) : StrongInv (add_book id t a i s).2 := by
  rcases add_book_snd id t a i s with hs | ⟨hk, hs⟩
  · rw [hs]; exact h
  · rw [hs]
    obtain ⟨hm, hb, href, hcm, hcb⟩ := h
    refine ⟨hm, ?_, ?_, hcm, hcb⟩
    · intro p hp
      rcases List.mem_append.mp hp with hp1 | hp2
      · exact hb p hp1
      · have hpe : p = (id, ⟨id, t, a, i, true⟩) := by simpa using hp2
        subst hpe
        simp only [true_iff]
        rintro ⟨tx, htx, htxb, htxa⟩
        have hx := (href tx htx htxa).2
        rw [htxb, hk] at hx
        simp at hx
    · intro tx htx htxa
      refine ⟨(href tx htx htxa).1, ?_⟩
      rw [hasKey_append_single]
      simp [(href tx htx htxa).2]

theorem StrongInv_delete_book (id : Int) {s : State} (h : StrongInv s) :
    StrongInv (delete_book id s).2 := by
  rcases delete_book_snd id s with hs | ⟨hact, hs⟩
  · rw [hs]; exact h
  · rw [hs]
    obtain ⟨hm, hb, href, hcm, hcb⟩ := h
    refine ⟨hm, ?_, ?_, hcm, hcb⟩
    · intro p hp
      exact hb p (List.mem_of_mem_filter hp)
    · intro t ht hta
      refine ⟨(href t ht hta).1, ?_⟩
      have hnot := List.find?_eq_none.mp hact t ht
      have htb : t.book_id ≠ id := by
        intro he
        exact hnot (by simp [he, hta])
      have := (href t ht hta).2
      simp only [hasKey] at this ⊢
      rwa [lookup_delKey, if_neg htb]

theorem StrongInv_borrow (m b : Int) {s : State} (h : StrongInv s) :
    StrongInv (borrow_book m b s).2 := by
  rw [borrow_book_snd]
  rcases borrow_inner_cases m b s with ⟨_, hs⟩ | ⟨h1, h2, h3, h4, _, hs⟩
  · rw [hs]; exact h
  · rw [hs]
    obtain ⟨hm, hb, href, hcm, hcb⟩ := h
    obtain ⟨bk, hbk⟩ : ∃ bk, List.lookup b s.books = some bk := by
      rcases hlk : List.lookup b s.books with _ | bk
      · rw [hlk] at h4; simp at h4
      · exact ⟨bk, rfl⟩
    have hbav : bk.is_available = true := by
      rw [hbk] at h4; simpa using h4
    have hbmem : (b, bk) ∈ s.books := mem_of_lookup_eq_some hbk
    have hnoact : ¬ ∃ t ∈ s.transactions, t.book_id = b ∧ t.status = .active :=
      (hb (b, bk) hbmem).mp hbav
    have hnoactm : ∀ t ∈ s.transactions,
        ¬ (t.member_id == m && t.status == TxStatus.active) = true :=
      List.find?_eq_none.mp h3
    refine ⟨?_, ?_, ?_, ?_, ?_⟩
    · intro p hp
      rcases List.mem_map.mp hp with ⟨q, hq, hpq⟩
      by_cases hqk : q.1 = m
      · rw [if_pos hqk] at hpq
        subst hpq
        simp only [true_iff]
        exact ⟨borrowTxn m b s, by simp, by rw [hqk]; rfl, rfl⟩
      · rw [if_neg hqk] at hpq
        subst hpq
        have hold := hm q hq
        constructor
        · intro hf
          rcases hold.mp hf with ⟨t, ht, htm, hta⟩
          exact ⟨t, by simp [ht], htm, hta⟩
        · rintro ⟨t, ht, htm, hta⟩
          rcases List.mem_append.mp ht with ht1 | ht2
          · exact hold.mpr ⟨t, ht1, htm, hta⟩
          · have he : t = borrowTxn m b s := by simpa using ht2
            subst he
            exact absurd htm.symm (by simpa [borrowTxn] using hqk)
    · intro p hp
      rcases List.mem_map.mp hp with ⟨q, hq, hpq⟩
      by_cases hqk : q.1 = b
      · rw [if_pos hqk] at hpq
        subst hpq
        refine iff_of_false (by simp) (not_not_intro ?_)
        exact ⟨borrowTxn m b s, by simp, by rw [hqk]; rfl, rfl⟩
      · rw [if_neg hqk] at hpq
        subst hpq
        have hold := hb q hq
        have hiff : (∃ t ∈ s.transactions ++ [borrowTxn m b s],
            t.book_id = q.1 ∧ t.status = .active) ↔
            (∃ t ∈ s.transactions, t.book_id = q.1 ∧ t.status = .active) := by
          constructor
          · rintro ⟨t, ht, htb, hta⟩
            rcases List.mem_append.mp ht with ht1 | ht2
            · exact ⟨t, ht1, htb, hta⟩
            · have he : t = borrowTxn m b s := by simpa using ht2
              subst he
              exact absurd htb.symm (by simpa [borrowTxn] using hqk)
          · rintro ⟨t, ht, htb, hta⟩
            exact ⟨t, by simp [ht], htb, hta⟩
        rw [hiff]
        exact hold
    · intro t ht hta
      rcases List.mem_append.mp ht with ht1 | ht2
      · have := href t ht1 hta
        rw [hasKey_updEntry, hasKey_updEntry]
        exact this
      · have he : t = borrowTxn m b s := by simpa using ht2
        subst he
        rw [hasKey_updEntry, hasKey_updEntry]
        exact ⟨h1, h2⟩
    · intro mid
      simp only [activeMemberCount, List.countP_append, List.countP_cons,
        List.countP_nil]
      by_cases hmid : mid = m
      · subst hmid
        have hz : s.transactions.countP
            (fun t => t.member_id == mid && t.status == TxStatus.active) = 0 :=
          List.countP_eq_zero.mpr (fun t ht => hnoactm t ht)
        simp [hz, borrowTxn]
      · have hle := hcm mid
        simp only [activeMemberCount] at hle
        have : ((borrowTxn m b s).member_id == mid &&
            (borrowTxn m b s).status == TxStatus.active) = false := by
          simp [borrowTxn]
          intro he
          exact absurd he.symm hmid
        simp [this]
        omega
    · intro bid
      simp only [activeBookCount, List.countP_append, List.countP_cons,
        List.countP_nil]
      by_cases hbid : bid = b
      · subst hbid
        have hz : s.transactions.countP
            (fun t => t.book_id == bid && t.status == TxStatus.active) = 0 := by
          refine List.countP_eq_zero.mpr (fun t ht hpt => ?_)
          simp only [Bool.and_eq_true, beq_iff_eq] at hpt
          exact hnoact ⟨t, ht, hpt.1, hpt.2⟩
        simp [hz, borrowTxn]
      · have hle := hcb bid
        simp only [activeBookCount] at hle
        have : ((borrowTxn m b s).book_id == bid &&
            (borrowTxn m b s).status == TxStatus.active) = false := by
          simp [borrowTxn]
          intro he
          exact absurd he.symm hbid
        simp [this]
        omega

theorem StrongInv_return (m b : Int) (now : Int) {s : State} (h : StrongInv s) :
    StrongInv (return_book m b now s).2 := by
  rcases return_book_cases h m b now with ⟨_, hs⟩ | ⟨i, t0, hfind, hget, hp, _, hs⟩
  · rw [hs]; exact h
  · rw [hs]
    obtain ⟨hm, hb, href, hcm, hcb⟩ := h
    obtain ⟨hi, hval⟩ := List.get?_eq_some.mp hget
    have hpm : t0.member_id = m ∧ t0.book_id = b ∧ t0.status = .active := by
      have := hp
      simp only [retPred, Bool.and_eq_true, beq_iff_eq] at this
      exact ⟨this.1.1, this.1.2, this.2⟩
    have hmem : t0 ∈ s.transactions := by
      rw [← hval]
      exact List.get_mem _ _ _
    have hcell : ∀ p : Txn → Bool, p t0 = true → p (retTxn t0 now) = false →
        s.transactions.countP p ≤ 1 →
        (s.transactions.set i (retTxn t0 now)).countP p = 0 := by
      intro p hpt0 hpt1 hle
      have hadd := countP_set_add p s.transactions i (retTxn t0 now) hi
      rw [hval] at hadd
      rw [if_pos hpt0, if_neg (by simp [hpt1])] at hadd
      have hpos : 0 < s.transactions.countP p :=
        List.countP_pos_iff.mpr ⟨_, hmem, hpt0⟩
      omega
    have hdrop : ∀ p : Txn → Bool, p (retTxn t0 now) = false →
        (s.transactions.set i (retTxn t0 now)).countP p ≤
          s.transactions.countP p := by
      intro p hpt1
      have hadd := countP_set_add p s.transactions i (retTxn t0 now) hi
      rw [hval] at hadd
      have e1 : (if p (retTxn t0 now) = true then 1 else 0) = 0 := by simp [hpt1]
      rw [e1] at hadd
      omega
    have hzm := hcell (fun t => t.member_id == m && t.status == TxStatus.active)
      (by simp [hpm.1, hpm.2.2]) (by simp [retTxn]) (hcm m)
    have hzb := hcell (fun t => t.book_id == b && t.status == TxStatus.active)
      (by simp [hpm.2.1, hpm.2.2]) (by simp [retTxn]) (hcb b)
    have hnm := List.countP_eq_zero.mp hzm
    have hnb := List.countP_eq_zero.mp hzb
    refine ⟨?_, ?_, ?_, ?_, ?_⟩
    · intro p hp'
      rcases List.mem_map.mp hp' with ⟨q, hq, hpq⟩
      by_cases hqk : q.1 = m
      · rw [if_pos hqk] at hpq
        subst hpq
        refine iff_of_false (by simp) ?_
        rintro ⟨t, ht, htm, hta⟩
        exact absurd (by simp [htm, hqk, hta] :
          (t.member_id == m && t.status == TxStatus.active) = true) (hnm t ht)
      · rw [if_neg hqk] at hpq
        subst hpq
        have hold := hm q hq
        constructor
        · intro hf
          rcases hold.mp hf with ⟨t, ht, htm, hta⟩
          have htne : t ≠ s.transactions.get ⟨i, hi⟩ := by
            rw [hval]
            intro he
            apply hqk
            rw [← htm, he]
            exact hpm.1
          exact ⟨t, mem_set_of_ne hi ht htne, htm, hta⟩
        · rintro ⟨t, ht, htm, hta⟩
          rcases List.mem_or_eq_of_mem_set ht with ht1 | ht2
          · exact hold.mpr ⟨t, ht1, htm, hta⟩
          · rw [ht2] at hta
            simp [retTxn] at hta
    · intro p hp'
      rcases List.mem_map.mp hp' with ⟨q, hq, hpq⟩
      by_cases hqk : q.1 = b
      · rw [if_pos hqk] at hpq
        subst hpq
        refine iff_of_true (by simp) ?_
        rintro ⟨t, ht, htb, hta⟩
        exact absurd (by simp [htb, hqk, hta] :
          (t.book_id == b && t.status == TxStatus.active) = true) (hnb t ht)
      · rw [if_neg hqk] at hpq
        subst hpq
        have hold := hb q hq
        have hiff : (∃ t ∈ s.transactions.set i (retTxn t0 now),
            t.book_id = q.1 ∧ t.status = .active) ↔
            (∃ t ∈ s.transactions, t.book_id = q.1 ∧ t.status = .active) := by
          constructor
          · rintro ⟨t, ht, htb, hta⟩
            rcases List.mem_or_eq_of_mem_set ht with ht1 | ht2
            · exact ⟨t, ht1, htb, hta⟩
            · rw [ht2] at hta
              simp [retTxn] at hta
          · rintro ⟨t, ht, htb, hta⟩
            have htne : t ≠ s.transactions.get ⟨i, hi⟩ := by
              rw [hval]
              intro he
              apply hqk
              rw [← htb, he]
              exact hpm.2.1
            exact ⟨t, mem_set_of_ne hi ht htne, htb, hta⟩
        rw [hiff]
        exact hold
    · intro t ht hta
      rcases List.mem_or_eq_of_mem_set ht with ht1 | ht2
      · have := href t ht1 hta
        rw [hasKey_updEntry, hasKey_updEntry]
        exact this
      · rw [ht2] at hta
        simp [retTxn] at hta
    · intro mid
      simp only [activeMemberCount]
      calc (s.transactions.set i (retTxn t0 now)).countP
            (fun t => t.member_id == mid && t.status == TxStatus.active) ≤
          s.transactions.countP
            (fun t => t.member_id == mid && t.status == TxStatus.active) :=
            hdrop _ (by simp [retTxn])
        _ ≤ 1 := hcm mid
    · intro bid
      simp only [activeBookCount]
      calc (s.transactions.set i (retTxn t0 now)).countP
            (fun t => t.book_id == bid && t.status == TxStatus.active) ≤
          s.transactions.countP
            (fun t => t.book_id == bid && t.status == TxStatus.active) :=
            hdrop _ (by simp [retTxn])
        _ ≤ 1 := hcb bid

theorem StrongInv_reserve (m b : Int) (now : DT) {s : State} (h : StrongInv s) :
    StrongInv (create_reservation m b now s).2 := by
  rw [create_reservation_snd]
  rcases create_reservation_inner_cases m b now s with ⟨_, hs⟩ | ⟨_, _, _, _, hs⟩
  · rw [hs]; exact h
  · rw [hs]
    exact h

theorem StrongInv_step (op : Op) {s : State} (h : StrongInv s) :
    StrongInv (step op s) := by
  cases op with
  | createMember id n a => exact StrongInv_create_member id n a h
  | updateMember id n a => exact StrongInv_update_member id n a h
  | deleteMember id => exact StrongInv_delete_member id h
  | createBook id t a i => exact StrongInv_add_book id t a i h
  | deleteBook id => exact StrongInv_delete_book id h
  | borrow m b => exact StrongInv_borrow m b h
  | ret m b now => exact StrongInv_return m b now h
  | reserve m b now => exact StrongInv_reserve m b now h

theorem StrongInv_run (ops : List Op) :
    ∀ s : State, StrongInv s → StrongInv (run ops s) := by
  induction ops with
  | nil => intro s h; exact h
  | cons op rest ih =>
    intro s h
    have : run (op :: rest) s = run rest (step op s) := by
      simp [run]
    rw [this]
    exact ih _ (StrongInv_step op h)

theorem StrongInv_reachable (ops : List Op) : StrongInv (run ops State.init) :=
  StrongInv_run ops State.init StrongInv_init

/-! ### Further supporting lemmas for the claims. -/

theorem lookup_reserveQueues (m b : Int) (now : DT) (s : State) :
    List.lookup b (reserveQueues m b now s) =
      some (heappush ((List.lookup b s.reservations).getD [])
        (reserveEntry m b now s)) := by
  unfold reserveQueues
  by_cases hk : hasKey s.reservations b = true
  · rw [if_pos hk, lookup_updEntry, if_pos rfl]
    rcases hlk : List.lookup b s.reservations with _ | q0
    · simp [hasKey, hlk] at hk
    · simp
  · rw [if_neg hk, lookup_updEntry, if_pos rfl]
    rw [lookup_append_self _ _ _ (by simpa using hk)]
    have hnone : List.lookup b s.reservations = none := by
      revert hk
      unfold hasKey
      cases List.lookup b s.reservations <;> simp
    rw [hnone]
    rfl

theorem return_book_reservation_counter (m b : Int) (now : Int) (s : State) :
    (return_book m b now s).2.reservation_counter = s.reservation_counter := by
  unfold return_book
  split
  all_goals try rfl
  all_goals ((try dsimp only); split; all_goals try rfl)
  all_goals (split; all_goals try rfl)
  all_goals (split; all_goals rfl)

theorem step_reservation_counter_mono (op : Op) (s : State) :
    s.reservation_counter ≤ (step op s).reservation_counter := by
  cases op with
  | createMember id n a =>
    rcases create_member_snd id n a s with hs | ⟨_, hs⟩ <;> simp [step, hs]
  | updateMember id n a =>
    rcases update_member_snd id n a s with hs | ⟨f, _, hs⟩ <;> simp [step, hs]
  | deleteMember id =>
    rcases delete_member_snd id s with hs | ⟨_, hs⟩ <;> simp [step, hs]
  | createBook id t a i =>
    rcases add_book_snd id t a i s with hs | ⟨_, hs⟩ <;> simp [step, hs]
  | deleteBook id =>
    rcases delete_book_snd id s with hs | ⟨_, hs⟩ <;> simp [step, hs]
  | borrow m b =>
    rcases borrow_inner_cases m b s with ⟨_, hs⟩ | ⟨_, _, _, _, _, hs⟩ <;>
      simp [step, borrow_book_snd, hs]
  | ret m b now =>
    simp [step, return_book_reservation_counter]
  | reserve m b now =>
    rcases create_reservation_inner_cases m b now s with ⟨_, hs⟩ | ⟨_, _, _, _, hs⟩ <;>
      simp [step, create_reservation_snd, hs]

/-! ### The claims. -/

/-- C4 (code_bug): `borrow_book` wraps all four of its intended precondition
failures in the blanket `except Exception` clause, so an unknown member,
unknown book, already-borrowing member or unavailable book are each reported
with HTTP status 500 ("Internal server error: ...") instead of the intended
distinguishable 404/400 responses.  Evaluated at one concrete failing input per
check. -/
theorem claim4_borrow_failures_reported_as_500 :
    (borrow_book 7 100 State.init).1 = .error ⟨500,
      "Internal server error: 404: member with id: 7 was not found"⟩ ∧
    (borrow_book 1 100 stateC).1 = .error ⟨500,
      "Internal server error: 404: book with id: 100 was not found"⟩ ∧
    (borrow_book 1 11 stateC).1 = .error ⟨500,
      "Internal server error: 400: member with id: 1 has already borrowed a book"⟩ ∧
    (borrow_book 2 11 stateC2).1 = .error ⟨500,
      "Internal server error: 400: book with id: 11 is not available"⟩ := by
  refine ⟨?_, ?_, ?_, ?_⟩ <;> decide

/-- C5 (counterexample): the reservation id produced at 2025-09-14 with counter
value 0 is "RES-2025-0914-001" — `strftime('%Y-%m%d')` leaves a hyphen between
the year and the month — which does not match the claimed shape "RES-" plus
eight contiguous digits plus "-" plus the padded counter. -/
theorem claim5_counterexample :
    (get_next_reservation_id ⟨2025, 9, 14, 8, 0, 0⟩ 0).2 = "RES-2025-0914-001" ∧
    (create_reservation 7 300 ⟨2025, 9, 14, 8, 0, 0⟩
        (run (scenarioF.take 2) State.init)).1 =
      .ok ⟨"RES-2025-0914-001", 7, 300, "queued", 1⟩ ∧
    claimedResIdFormat "RES-2025-0914-001" = false := by
  refine ⟨?_, ?_, ?_⟩ <;> decide

/-- C5 (amended): every reservation id is "RES-", the creation date rendered as
`%Y-%m%d` (four-digit year, a hyphen, two-digit month and two-digit day with no
separator between them), a hyphen, and the process-wide counter incremented by
one and zero-padded to 3 digits; the counter grows by exactly one per
successful reservation and no operation ever decreases it (in particular it
does not reset when the date changes). -/
theorem claim5_amended (m b : Int) (now : DT) (s : State) (r : RespReservation)
    (hok : (create_reservation m b now s).1 = .ok r) :
    r.reservation_id = "RES-" ++ (pad 4 now.year.toNat ++ "-" ++
      pad 2 now.month.toNat ++ pad 2 now.day.toNat) ++ "-" ++
      pad 3 (s.reservation_counter + 1) ∧
    (create_reservation m b now s).2.reservation_counter =
      s.reservation_counter + 1 ∧
    ∀ op : Op, ∀ s2 : State, s2.reservation_counter ≤
      (step op s2).reservation_counter := by
  rw [create_reservation_fst] at hok
  rcases create_reservation_inner_cases m b now s with ⟨⟨e, he⟩, _⟩ |
    ⟨_, _, _, hfst, hsnd⟩
  · rw [he] at hok
    cases hok
  · rw [hfst] at hok
    obtain rfl : (⟨(get_next_reservation_id now s.reservation_counter).2, m, b,
        "queued", reservePos m b now s⟩ : RespReservation) = r := by
      injection hok
    refine ⟨rfl, ?_, fun op s2 => step_reservation_counter_mono op s2⟩
    rw [create_reservation_snd, hsnd]

/-- C5 witness: the amended theorem applied to the first reservation of
`scenarioF` (created 2025-09-14 08:00 with counter 0). -/
theorem claim5_amended_witness :
    (create_reservation 7 300 ⟨2025, 9, 14, 8, 0, 0⟩
        (run (scenarioF.take 2) State.init)).1 =
      .ok ⟨"RES-2025-0914-001", 7, 300, "queued", 1⟩ ∧
    (⟨"RES-2025-0914-001", 7, 300, "queued", 1⟩ :
        RespReservation).reservation_id =
      "RES-" ++ (pad 4 2025 ++ "-" ++ pad 2 9 ++ pad 2 14) ++ "-" ++ pad 3 1 :=
  ⟨by decide,
   (claim5_amended 7 300 ⟨2025, 9, 14, 8, 0, 0⟩ (run (scenarioF.take 2) State.init)
     ⟨"RES-2025-0914-001", 7, 300, "queued", 1⟩ (by decide)).1⟩

/-- C8 (counterexample): the fixed due date 2025-09-03T11:00:00 lies 10 days
and 13 hours before the fixed current date 2025-09-14T00:00:00, so the
days-overdue annotation is 10, not 11 as the claim states. -/
theorem claim8_counterexample :
    calculate_due_date FIXED_BORROWED_AT = DT.toSecs ⟨2025, 9, 3, 11, 0, 0⟩ ∧
    calculate_days_overdue (calculate_due_date FIXED_BORROWED_AT) = 10 ∧
    (10 : Int) ≠ 11 := by
  refine ⟨?_, ?_, ?_⟩ <;> decide

/-- C8 (amended): every successful borrow records the fixed constant
2025-08-20T11:00:00 as borrowed_at regardless of invocation, hence due_date is
always 2025-09-03T11:00:00, and every active transaction is overdue by 10 days
(10 days 13 hours, floored) against the fixed current date 2025-09-14. -/
theorem claim8_amended (m b : Int) (s : State) (t : Txn)
    (hok : (borrow_book m b s).1 = .ok t) :
    t.borrowed_at = DT.toSecs ⟨2025, 8, 20, 11, 0, 0⟩ ∧
    t.due_date = DT.toSecs ⟨2025, 9, 3, 11, 0, 0⟩ ∧
    calculate_days_overdue t.due_date = 10 := by
  rw [borrow_book_fst] at hok
  rcases borrow_inner_cases m b s with ⟨⟨e, he⟩, _⟩ | ⟨_, _, _, _, hfst, _⟩
  · rw [he] at hok
    cases hok
  · rw [hfst] at hok
    obtain rfl : borrowTxn m b s = t := by injection hok
    refine ⟨?_, ?_, ?_⟩
    · show FIXED_BORROWED_AT = DT.toSecs ⟨2025, 8, 20, 11, 0, 0⟩
      decide
    · show calculate_due_date FIXED_BORROWED_AT = DT.toSecs ⟨2025, 9, 3, 11, 0, 0⟩
      decide
    · show calculate_days_overdue (calculate_due_date FIXED_BORROWED_AT) = 10
      decide

/-- C8 witness: the amended theorem applied to the borrow of `scenarioC`. -/
theorem claim8_amended_witness :
    (borrow_book 1 11 (run (scenarioC.take 2) State.init)).1 =
      .ok (borrowTxn 1 11 (run (scenarioC.take 2) State.init)) ∧
    calculate_days_overdue
      (borrowTxn 1 11 (run (scenarioC.take 2) State.init)).due_date = 10 :=
  ⟨by decide,
   (claim8_amended 1 11 (run (scenarioC.take 2) State.init)
     (borrowTxn 1 11 (run (scenarioC.take 2) State.init)) (by decide)).2.2⟩

/-- C1 (counterexample): in `scenarioA` three members with priority scores
0.3, 0.3 and 0 hold reservations on book 200, inserted in that order (reported
positions 1, 2, 3).  A fourth reservation by another score-0.3 member is
reported at queue_position 4 — its raw index in the heap's backing array —
whereas its 1-based rank in the queue fully ordered by (score descending,
creation time ascending) is 3, the position the claim predicts. -/
theorem claim1_counterexample :
    (create_reservation 4 200 timeA4 stateA).1 =
      .ok ⟨"RES-2025-0914-004", 4, 200, "queued", 4⟩ ∧
    specQueueRank
      ((List.lookup 200
        (create_reservation 4 200 timeA4 stateA).2.reservations).getD [])
      "RES-2025-0914-004" = 3 ∧
    (4 : Nat) ≠ 3 := by
  refine ⟨?_, ?_, ?_⟩ <;> decide

/-- C1 (amended): the queue_position returned for a new reservation is one
plus the raw index of the new entry in the binary-min-heap backing array that
`heapq.heappush` maintains under the key (-score, created_at); the new entry is
always found, so the position is at least 1, but the heap array is not the
fully sorted queue, so the position can differ from the rank under
(score descending, creation time ascending) — in the [5,5,3]-then-5 pattern of
the claim the fourth insertion is reported at position 4, not 3. -/
theorem claim1_amended (m b : Int) (now : DT) (s : State) (r : RespReservation)
    (hok : (create_reservation m b now s).1 = .ok r) :
    r.queue_position = reservePos m b now s ∧
    ∃ q, List.lookup b (create_reservation m b now s).2.reservations = some q ∧
      ∃ j, q.findIdx? (fun e2 => e2.res.reservation_id ==
          (get_next_reservation_id now s.reservation_counter).2) = some j ∧
        r.queue_position = j + 1 := by
  rw [create_reservation_fst] at hok
  rcases create_reservation_inner_cases m b now s with ⟨⟨e, he⟩, _⟩ |
    ⟨_, _, _, hfst, hsnd⟩
  · rw [he] at hok
    cases hok
  · rw [hfst] at hok
    obtain rfl : (⟨(get_next_reservation_id now s.reservation_counter).2, m, b,
        "queued", reservePos m b now s⟩ : RespReservation) = r := by
      injection hok
    rw [create_reservation_snd, hsnd]
    refine ⟨rfl, heappush ((List.lookup b s.reservations).getD [])
      (reserveEntry m b now s), lookup_reserveQueues m b now s, ?_⟩
    have hcnt : 0 < (heappush ((List.lookup b s.reservations).getD [])
        (reserveEntry m b now s)).countP (fun e2 => e2.res.reservation_id ==
          (get_next_reservation_id now s.reservation_counter).2) := by
      rw [heappush_countP]
      simp [reserveEntry]
    obtain ⟨x, hx, hpx⟩ := List.countP_pos_iff.mp hcnt
    rcases hj : (heappush ((List.lookup b s.reservations).getD [])
        (reserveEntry m b now s)).findIdx? (fun e2 => e2.res.reservation_id ==
          (get_next_reservation_id now s.reservation_counter).2) with _ | j
    · have hfalse := List.findIdx?_eq_none_iff.mp hj x hx
      rw [hpx] at hfalse
      cases hfalse
    · refine ⟨j, hj, ?_⟩
      show reservePos m b now s = j + 1
      unfold reservePos
      rw [lookup_reserveQueues]
      simp only [Option.getD_some]
      rw [hj]

/-- C1 witness: the amended theorem applied to the fourth reservation of the
counterexample scenario. -/
theorem claim1_amended_witness :
    (create_reservation 4 200 timeA4 stateA).1 =
      .ok ⟨"RES-2025-0914-004", 4, 200, "queued", 4⟩ ∧
    (⟨"RES-2025-0914-004", 4, 200, "queued", 4⟩ :
      RespReservation).queue_position = reservePos 4 200 timeA4 stateA :=
  ⟨by decide, (claim1_amended 4 200 timeA4 stateA
    ⟨"RES-2025-0914-004", 4, 200, "queued", 4⟩ (by decide)).1⟩

/-- C2 (counterexample): member 1 in `scenarioB` has two transactions, one
returned on time and one still active.  The claim's formula (punctuality =
on-time / returned count = 1/1) gives score 2 * 0.3 + 1 * 0.7 = 1.3; the code
divides by the full history length (punctuality 1/2), giving 0.95. -/
theorem claim2_counterexample :
    (calculate_priority_score 1 stateB.transactions).toRat = 19 / 20 ∧
    claimPriorityScore 1 stateB.transactions = 13 / 10 ∧
    (19 / 20 : ℚ) ≠ 13 / 10 := by
  refine ⟨?_, ?_, by norm_num⟩
  · have h : calculate_priority_score 1 stateB.transactions = ⟨19, 20⟩ := by
      decide
    rw [h]
    norm_num [Score.toRat]
  · have ht : stateB.transactions = [
      ⟨501, 1, 11, FIXED_BORROWED_AT, some earlyReturn, .returned,
        calculate_due_date FIXED_BORROWED_AT⟩,
      ⟨502, 1, 12, FIXED_BORROWED_AT, none, .active,
        calculate_due_date FIXED_BORROWED_AT⟩] := by decide
    rw [ht]
    simp +decide [claimPriorityScore, onTimeB]
    norm_num

/-- C2 (amended): the score equals frequency * 0.3 + punctuality * 0.7, where
frequency counts all of the member's transactions and punctuality divides the
on-time returned count by the FULL transaction count (not by the returned
count), with punctuality 0 for an empty history. -/
theorem claim2_amended (mid : Int) (txns : List Txn) :
    (calculate_priority_score mid txns).toRat =
      ((txns.filter fun t => t.member_id == mid).length : ℚ) * (3 / 10) +
      (if (txns.filter fun t => t.member_id == mid).length = 0 then 0 else
        (((txns.filter fun t => t.member_id == mid).filter onTimeB).length : ℚ) /
          ((txns.filter fun t => t.member_id == mid).length : ℚ)) * (7 / 10) := by
  unfold calculate_priority_score Score.toRat
  by_cases h : (txns.filter fun t => t.member_id == mid).length = 0
  · simp [h]
  · have hf : ((txns.filter fun t => t.member_id == mid).length : ℚ) ≠ 0 :=
      Nat.cast_ne_zero.mpr h
    rw [if_neg h, if_neg h]
    push_cast
    field_simp
    ring

/-- C3: after every sequence of API operations from the initial state, every
stored member's has_borrowed flag equals "an active transaction with this
member's id exists", and every stored book's is_available flag equals "no
active transaction with this book's id exists". -/
theorem claim3_flag_invariant (ops : List Op) :
    (∀ p ∈ (run ops State.init).members,
      (Prod.snd (α := Int) p).has_borrowed = true ↔
        ∃ t ∈ (run ops State.init).transactions,
          t.member_id = p.1 ∧ t.status = .active) ∧
    (∀ p ∈ (run ops State.init).books,
      (Prod.snd (α := Int) p).is_available = true ↔
        ¬ ∃ t ∈ (run ops State.init).transactions,
          t.book_id = p.1 ∧ t.status = .active) :=
  ⟨(StrongInv_reachable ops).1, (StrongInv_reachable ops).2.1⟩

/-- C3 witness: the invariant read off for the borrowing member of `scenarioC`
and for its borrowed book. -/
theorem claim3_flag_invariant_witness :
    ((1 : Int), (⟨1, "alice", 20, true⟩ : Member)) ∈
      (run scenarioC State.init).members ∧
    ((⟨1, "alice", 20, true⟩ : Member).has_borrowed = true ↔
      ∃ t ∈ (run scenarioC State.init).transactions,
        t.member_id = 1 ∧ t.status = .active) :=
  ⟨by decide,
   (claim3_flag_invariant scenarioC).1 (1, ⟨1, "alice", 20, true⟩) (by decide)⟩

/-- C6: get_overdue returns exactly the active transactions whose due_date is
strictly before the fixed CURRENT_DATE; every returned row's days_overdue is
the floored whole-day count of CURRENT_DATE - due_date and is nonnegative;
returned transactions never contribute a row. -/
theorem claim6_overdue (s : State) :
    (∀ t ∈ s.transactions, t.status = .active → t.due_date < CURRENT_DATE →
      mkOverdue s t ∈ get_overdue s) ∧
    (∀ o ∈ get_overdue s, ∃ t ∈ s.transactions,
      t.status = .active ∧ t.due_date < CURRENT_DATE ∧ o = mkOverdue s t ∧
      o.days_overdue = Int.fdiv (CURRENT_DATE - t.due_date) SECONDS_PER_DAY ∧
      0 ≤ o.days_overdue) := by
  constructor
  · intro t ht hact hdue
    unfold get_overdue
    exact List.mem_map.mpr ⟨t, List.mem_filter.mpr ⟨ht, by simp [hact, hdue]⟩, rfl⟩
  · intro o ho
    unfold get_overdue at ho
    rcases List.mem_map.mp ho with ⟨t, htf, rfl⟩
    rcases List.mem_filter.mp htf with ⟨ht, hcond⟩
    simp only [Bool.and_eq_true, beq_iff_eq, decide_eq_true_eq] at hcond
    have hnn : 0 ≤ Int.fdiv (CURRENT_DATE - t.due_date) SECONDS_PER_DAY := by
      apply Int.fdiv_nonneg
      · omega
      · norm_num [SECONDS_PER_DAY]
    refine ⟨t, ht, hcond.1, hcond.2, rfl, ?_, ?_⟩
    · show calculate_days_overdue t.due_date = _
      unfold calculate_days_overdue
      exact max_eq_right hnn
    · show (0 : Int) ≤ calculate_days_overdue t.due_date
      exact le_max_left 0 _

/-- C6 witness: the single (overdue) active transaction of `scenarioC` appears
in the overdue report. -/
theorem claim6_overdue_witness :
    (⟨501, 1, 11, FIXED_BORROWED_AT, none, .active,
       calculate_due_date FIXED_BORROWED_AT⟩ : Txn) ∈ stateC.transactions ∧
    mkOverdue stateC ⟨501, 1, 11, FIXED_BORROWED_AT, none, .active,
       calculate_due_date FIXED_BORROWED_AT⟩ ∈ get_overdue stateC :=
  ⟨by decide, (claim6_overdue stateC).1 _ (by decide) (by decide) (by decide)⟩

/-- C7: on every reachable state, a failed borrow and a failed return leave
the entire state — member store, book store, transaction ledger, both counters
and all reservation queues — unchanged. -/
theorem claim7_failed_borrow_return_no_mutation (ops : List Op) (m b : Int)
    (now : Int) :
    (∀ e, (borrow_book m b (run ops State.init)).1 = .error e →
      (borrow_book m b (run ops State.init)).2 = run ops State.init) ∧
    (∀ e, (return_book m b now (run ops State.init)).1 = .error e →
      (return_book m b now (run ops State.init)).2 = run ops State.init) := by
  constructor
  · intro e he
    rw [borrow_book_snd]
    rcases borrow_inner_cases m b (run ops State.init) with ⟨_, hs⟩ |
      ⟨_, _, _, _, hok, hs⟩
    · exact hs
    · rw [borrow_book_fst, hok] at he
      simp at he
  · intro e he
    rcases return_book_cases (StrongInv_reachable ops) m b now with ⟨_, hs⟩ |
      ⟨i, t0, _, _, _, hok, hs⟩
    · exact hs
    · rw [hok] at he
      simp at he

/-- C7 witness: a failed borrow (member 1 already borrowing) and a failed
return (no active transaction for book 99) on the state of `scenarioC` leave
it unchanged. -/
theorem claim7_witness :
    (borrow_book 1 11 (run scenarioC State.init)).1 = .error ⟨500,
      "Internal server error: 400: member with id: 1 has already borrowed a book"⟩ ∧
    (borrow_book 1 11 (run scenarioC State.init)).2 = run scenarioC State.init ∧
    (return_book 1 99 0 (run scenarioC State.init)).1 = .error ⟨400,
      "member with id: 1 has not borrowed book with id: 99"⟩ ∧
    (return_book 1 99 0 (run scenarioC State.init)).2 = run scenarioC State.init :=
  ⟨by decide,
   (claim7_failed_borrow_return_no_mutation scenarioC 1 11 0).1 ⟨500,
     "Internal server error: 400: member with id: 1 has already borrowed a book"⟩
     (by decide),
   by decide,
   (claim7_failed_borrow_return_no_mutation scenarioC 1 99 0).2 ⟨400,
     "member with id: 1 has not borrowed book with id: 99"⟩ (by decide)⟩

/-- C9: create_reservation performs no per-book duplicate check: if a member
holds exactly one reservation overall and it lies in book b's queue, a second
reservation by the same member for the same book succeeds (the 2-reservation
limit counts the total across all queues), leaving the member queued twice for
that one book. -/
theorem claim9_duplicate_reservation (m b : Int) (now : DT) (s : State)
    (hbk : hasKey s.books b = true) (hmk : hasKey s.members m = true)
    (hcount : countResMember s.reservations m = 1)
    (hqueue : countResMemberBook s.reservations m b = 1) :
    (create_reservation m b now s).1 = .ok
      ⟨(get_next_reservation_id now s.reservation_counter).2, m, b, "queued",
       reservePos m b now s⟩ ∧
    countResMemberBook (create_reservation m b now s).2.reservations m b = 2 := by
  have hok := create_reservation_inner_ok m b now s hbk hmk (by omega)
  constructor
  · rw [create_reservation_fst, hok]
  · rw [create_reservation_snd, hok]
    show countResMemberBook (reserveQueues m b now s) m b = 2
    unfold countResMemberBook
    rw [lookup_reserveQueues]
    simp only [Option.getD_some]
    rw [← List.countP_eq_length_filter, heappush_countP]
    have hpe : ((reserveEntry m b now s).res.member_id == m) = true := by
      simp [reserveEntry]
    unfold countResMemberBook at hqueue
    rw [List.countP_eq_length_filter]
    simp only [hpe, if_true]
    omega

/-- C9 witness: member 7 of `scenarioF` already holds one reservation on book
300; a second reservation for book 300 succeeds and leaves member 7 queued
twice for it. -/
theorem claim9_witness :
    (create_reservation 7 300 ⟨2025, 9, 14, 8, 30, 0⟩ stateF).1 = .ok
      ⟨(get_next_reservation_id ⟨2025, 9, 14, 8, 30, 0⟩
          stateF.reservation_counter).2,
       7, 300, "queued", reservePos 7 300 ⟨2025, 9, 14, 8, 30, 0⟩ stateF⟩ ∧
    countResMemberBook
      (create_reservation 7 300 ⟨2025, 9, 14, 8, 30, 0⟩
        stateF).2.reservations 7 300 = 2 :=
  claim9_duplicate_reservation 7 300 ⟨2025, 9, 14, 8, 30, 0⟩ stateF
    (by decide) (by decide) (by decide) (by decide)

/-- C10: a successful deleteMember removes exactly that member's entry from the
member store; the transaction ledger, every reservation queue and both counters
are unchanged, so a deleted member's queued reservations survive and still
count toward the 2-reservation limit if the same id is re-created. -/
theorem claim10_delete_member_frame (id : Int) (s : State) (msg : String)
    (hok : (delete_member id s).1 = .ok msg) :
    (delete_member id s).2 = { s with members := delKey s.members id } ∧
    (delete_member id s).2.transactions = s.transactions ∧
    (delete_member id s).2.reservations = s.reservations ∧
    (delete_member id s).2.transaction_counter = s.transaction_counter ∧
    (delete_member id s).2.reservation_counter = s.reservation_counter ∧
    ∀ n a, countResMember
        (step (.createMember id n a) (delete_member id s).2).reservations id =
      countResMember s.reservations id := by
  have hsnd : (delete_member id s).2 =
      { s with members := delKey s.members id } := by
    unfold delete_member at hok ⊢
    by_cases hk : ¬ hasKey s.members id = true
    · rw [if_pos hk] at hok
      simp at hok
    · by_cases hact : (find_active_borrow id s.transactions).isSome = true
      · rw [if_neg hk, if_pos hact] at hok
        simp at hok
      · rw [if_neg hk, if_neg hact]
  refine ⟨hsnd, by rw [hsnd], by rw [hsnd], by rw [hsnd], by rw [hsnd], ?_⟩
  intro n a
  rcases create_member_snd id n a (delete_member id s).2 with hs | ⟨_, hs⟩ <;>
  · simp only [step]
    rw [hs, hsnd]

/-- C10 witness: deleting member 9 of `scenarioG` (two reservations, no loan)
succeeds; after re-creating the id, the member's reservation count across all
queues is still 2. -/
theorem claim10_witness :
    (delete_member 9 stateG).1 =
      .ok ("member with id: 9 has been deleted successfully") ∧
    countResMember (step (.createMember 9 "gerd" 30)
        (delete_member 9 stateG).2).reservations 9 =
      countResMember stateG.reservations 9 ∧
    countResMember stateG.reservations 9 = 2 :=
  ⟨by decide,
   (claim10_delete_member_frame 9 stateG
     "member with id: 9 has been deleted successfully"
     (by decide)).2.2.2.2.2 "gerd" 30,
   by decide⟩

end LibraryApi
